import Mathlib

set_option maxHeartbeats 1000000

/-!
Verification development for the NAPS2 domain-research repository
(src/CodeCanvas/research_backend.py and src/CodeCanvas/app.py).

The Python code is shallowly embedded: pure helpers become Lean
functions, fallible Python code (exceptions) returns `Except String`,
and the asynchronous orchestration is modelled as explicit traces and
small-step schedules.  Machine-level details that the claims do not
touch (actual HTTP traffic, printing) are abstracted into parameters.
-/

namespace NAPS2

/-! ## Python value model

`extract_domains` in research_backend.py receives arbitrary parsed JSON
and probes it with `in`, indexing and iteration, catching `Exception`.
We model the JSON/Python values it can see, together with Python
truthiness and the (possibly raising) container operations it uses.
-/

/-- Parsed JSON / Python values as seen by `extract_domains`. -/
inductive PyVal where
  | none
  | bool (b : Bool)
  | int (n : Int)
  | str (s : String)
  | list (xs : List PyVal)
  | dict (kvs : List (String × PyVal))

/-- Python truthiness (`if not x`). -/
def PyVal.truthy : PyVal → Bool
  | .none => false
  | .bool b => b
  | .int n => n != 0
  | .str s => s != ""
  | .list xs => !xs.isEmpty
  | .dict kvs => !kvs.isEmpty

/-- Does the needle match at the head of the haystack? -/
def matchesAt : List Char → List Char → Bool
  | [], _ => true
  | _ :: _, [] => false
  | n :: ns, h :: hs => n == h && matchesAt ns hs

/-- Does the needle occur anywhere in the haystack? -/
def hasSub (needle : List Char) : List Char → Bool
  | [] => needle.isEmpty
  | c :: cs => matchesAt needle (c :: cs) || hasSub needle cs

/-- Substring test, used for the Python `key in someString` membership. -/
def strContainsSub (hay needle : String) : Bool :=
  hasSub needle.toList hay.toList

/-- Python `key in v` for a string key: key lookup on dicts, membership on
lists, substring test on strings; raises `TypeError` otherwise. -/
def pyContains (key : String) : PyVal → Except String Bool
  | .dict kvs => .ok (kvs.any (fun kv => kv.1 == key))
  | .list xs => .ok (xs.any (fun v => match v with | .str s => s == key | _ => false))
  | .str s => .ok (strContainsSub s key)
  | _ => .error "TypeError: argument is not iterable"

/-- Python `v[key]` for a string key: raises `TypeError` on non-dicts. -/
def pyIndex (key : String) : PyVal → Except String PyVal
  | .dict kvs =>
    match kvs.find? (fun kv => kv.1 == key) with
    | some kv => .ok kv.2
    | Option.none => .error "KeyError"
  | _ => .error "TypeError: not subscriptable with a str key"

/-- Python `for x in v`: lists yield elements, strings yield one-character
strings, dicts yield their keys; raises `TypeError` otherwise. -/
def pyIter : PyVal → Except String (List PyVal)
  | .list xs => .ok xs
  | .str s => .ok (s.toList.map (fun c => .str (String.mk [c])))
  | .dict kvs => .ok (kvs.map (fun kv => .str kv.1))
  | _ => .error "TypeError: not iterable"

/-! ## urllib.parse netloc extraction

Model of `urllib.parse.urlparse(url).netloc` for the parts the code
relies on: optional scheme removal, then the `//`-prefixed network
location up to the first `/`, `?` or `#`.  Unbalanced brackets raise
`ValueError`, as in `urlsplit`.
-/

/-- Characters allowed in a URL scheme (letters, digits, `+`, `-`, `.`). -/
def schemeChar (c : Char) : Bool :=
  c.isAlpha || c.isDigit || c == '+' || c == '-' || c == '.'

/-- Remove a leading `scheme:` if the prefix before the first `:` is a valid
scheme starting with a letter (as in `urllib.parse.urlsplit`). -/
def splitScheme (cs : List Char) : List Char :=
  match cs.findIdx? (fun c => c == ':') with
  | some i =>
    if 0 < i ∧ (cs.headD ' ').isAlpha ∧ (cs.take i).all schemeChar then
      cs.drop (i + 1)
    else cs
  | Option.none => cs

/-- The netloc is everything after `//` up to the first `/`, `?` or `#`. -/
def splitNetloc (cs : List Char) : List Char :=
  cs.takeWhile (fun c => !(c == '/' || c == '?' || c == '#'))

/-- `urllib.parse.urlparse(url).netloc` as a character list; raises on
unbalanced square brackets like `urlsplit` does. -/
def urlparseNetloc (url : String) : Except String (List Char) :=
  let rest := splitScheme url.toList
  if rest.take 2 = ['/', '/'] then
    let netloc := splitNetloc (rest.drop 2)
    if ('[' ∈ netloc ∧ ']' ∉ netloc) ∨ (']' ∈ netloc ∧ '[' ∉ netloc) then
      .error "ValueError: Invalid IPv6 URL"
    else .ok netloc
  else .ok []

/-- Python `str.lower` on the ASCII range (the model works over ASCII). -/
def pyLowerChars (cs : List Char) : List Char := cs.map Char.toLower

/-- The per-URL body of the domain loop in `extract_domains`
(research_backend.py lines 126-139): parse the netloc, lowercase it,
strip one leading `www.`, and keep it only if non-empty, containing a
`.` and not starting with `.`.  `Option.none` means the URL contributed
no domain (either filtered out or a caught exception). -/
def normalizeDomain (url : String) : Option String :=
  match urlparseNetloc url with
  | .error _ => Option.none
  | .ok netloc =>
    let d0 := pyLowerChars netloc
    let d := if d0.take 4 = "www.".toList then d0.drop 4 else d0
    if d ≠ [] ∧ '.' ∈ d ∧ d.headD ' ' ≠ '.' then some (String.mk d) else Option.none

/-- `urlparse` is called on each collected value; non-strings raise inside
the inner `try` and are skipped. -/
def domainOfUrl : PyVal → Option String
  | .str s => normalizeDomain s
  | _ => Option.none

/-! ## URL collection (`extract_domains`, lines 109-123)

The `results[]` scan takes `url`, or `link` only when `url` is absent
(an `elif` in the source); the `organic[]` scan takes `url` only.
Exceptions propagate out of the collection loop to the outer handler.
-/

/-- Collect url values from `search_results["results"]` entries:
`url` if present, else `link` if present (the `if`/`elif` at lines 114-117). -/
def collectFromResults : List PyVal → Except String (List PyVal)
  | [] => .ok []
  | r :: rs =>
    match pyContains "url" r with
    | .error e => .error e
    | .ok true =>
      match pyIndex "url" r with
      | .error e => .error e
      | .ok v =>
        match collectFromResults rs with
        | .error e => .error e
        | .ok rest => .ok (v :: rest)
    | .ok false =>
      match pyContains "link" r with
      | .error e => .error e
      | .ok true =>
        match pyIndex "link" r with
        | .error e => .error e
        | .ok v =>
          match collectFromResults rs with
          | .error e => .error e
          | .ok rest => .ok (v :: rest)
      | .ok false => collectFromResults rs

/-- Collect url values from `search_results["organic"]` entries (lines 120-123). -/
def collectFromOrganic : List PyVal → Except String (List PyVal)
  | [] => .ok []
  | r :: rs =>
    match pyContains "url" r with
    | .error e => .error e
    | .ok true =>
      match pyIndex "url" r with
      | .error e => .error e
      | .ok v =>
        match collectFromOrganic rs with
        | .error e => .error e
        | .ok rest => .ok (v :: rest)
    | .ok false => collectFromOrganic rs

/-- One key section of the URL scan: membership test, then indexing and
iterating the container, then the entry scan. -/
def sectionUrls (collect : List PyVal → Except String (List PyVal))
    (key : String) (sr : PyVal) : Except String (List PyVal) :=
  match pyContains key sr with
  | .error e => .error e
  | .ok false => .ok []
  | .ok true =>
    match pyIndex key sr with
    | .error e => .error e
    | .ok container =>
      match pyIter container with
      | .error e => .error e
      | .ok entries => collect entries

/-- The whole `urls` collection phase of `extract_domains`. -/
def collectUrls (sr : PyVal) : Except String (List PyVal) :=
  match sectionUrls collectFromResults "results" sr with
  | .error e => .error e
  | .ok u1 =>
    match sectionUrls collectFromOrganic "organic" sr with
    | .error e => .error e
    | .ok u2 => .ok (u1 ++ u2)

/-- `set.add`: the output set is modelled as an insertion-ordered
duplicate-free list. -/
def insertNew (l : List String) (d : String) : List String :=
  if d ∈ l then l else l ++ [d]

/-- The domain loop of `extract_domains` over the collected url values. -/
def addDomainsFromUrls (urls : List PyVal) (acc : List String) : List String :=
  urls.foldl
    (fun a v =>
      match domainOfUrl v with
      | some d => insertNew a d
      | Option.none => a)
    acc

/-- `AsyncDomainResearcher.extract_domains` (research_backend.py lines
101-144).  A falsy input returns the empty set; an exception while
collecting URLs is caught by the outer handler and returns the domains
accumulated so far, which is still the empty set because the domain loop
only runs after the collection phase finished. -/
def extract_domains (sr : PyVal) : List String :=
  if !sr.truthy then []
  else
    match collectUrls sr with
    | .error _ => []
    | .ok urls => addDomainsFromUrls urls []

/-! ## Specification-side extraction algorithms

Two further definitions follow the words of the specification, to be
compared with `extract_domains` above.  `extractDomainsSpec` is the
algorithm exactly as the spec/claim states it: every URL string found
under all of `results[].url`, `results[].link` and `organic[].url` is
collected.  `extractDomainsAmended` differs only where the
counterexample forces it to: `results[].link` is consulted only for
entries that have no `url` key.
-/

/-- The string view of a Python value. -/
def PyVal.asStr : PyVal → Option String
  | .str s => some s
  | _ => Option.none

/-- List entries of `sr[key]` in a well-shaped response, else `[]`. -/
def sectionEntries (key : String) (sr : PyVal) : List PyVal :=
  match sr with
  | .dict kvs =>
    match kvs.find? (fun kv => kv.1 == key) with
    | some kv =>
      match kv.2 with
      | .list es => es
      | _ => []
    | Option.none => []
  | _ => []

/-- Claim C5 as stated: every URL string under both `url` and `link`. -/
def entryUrlStringsSpec (r : PyVal) : List String :=
  match r with
  | .dict kvs =>
    (match kvs.find? (fun kv => kv.1 == "url") with
     | some kv => (kv.2.asStr).toList
     | Option.none => []) ++
    (match kvs.find? (fun kv => kv.1 == "link") with
     | some kv => (kv.2.asStr).toList
     | Option.none => [])
  | _ => []

/-- Amended: `link` is consulted only when the entry has no `url` key. -/
def entryUrlStringsAmended (r : PyVal) : List String :=
  match r with
  | .dict kvs =>
    match kvs.find? (fun kv => kv.1 == "url") with
    | some kv => (kv.2.asStr).toList
    | Option.none =>
      match kvs.find? (fun kv => kv.1 == "link") with
      | some kv => (kv.2.asStr).toList
      | Option.none => []
  | _ => []

/-- Organic entries contribute only their `url` strings. -/
def entryUrlStringOrganic (r : PyVal) : List String :=
  match r with
  | .dict kvs =>
    match kvs.find? (fun kv => kv.1 == "url") with
    | some kv => (kv.2.asStr).toList
    | Option.none => []
  | _ => []

/-- The url value a `results[]` entry contributes in the source scan
(the value under `url`, else the value under `link`, else nothing). -/
def entryValAmended (r : PyVal) : List PyVal :=
  match r with
  | .dict kvs =>
    match kvs.find? (fun kv => kv.1 == "url") with
    | some kv => [kv.2]
    | Option.none =>
      match kvs.find? (fun kv => kv.1 == "link") with
      | some kv => [kv.2]
      | Option.none => []
  | _ => []

/-- The url value an `organic[]` entry contributes in the source scan. -/
def entryValOrganic (r : PyVal) : List PyVal :=
  match r with
  | .dict kvs =>
    match kvs.find? (fun kv => kv.1 == "url") with
    | some kv => [kv.2]
    | Option.none => []
  | _ => []

/-- URL strings collected per the claim as written. -/
def collectUrlStringsSpec (sr : PyVal) : List String :=
  ((sectionEntries "results" sr).map entryUrlStringsSpec).flatten ++
    ((sectionEntries "organic" sr).map entryUrlStringOrganic).flatten

/-- URL strings collected per the amended claim. -/
def collectUrlStringsAmended (sr : PyVal) : List String :=
  ((sectionEntries "results" sr).map entryUrlStringsAmended).flatten ++
    ((sectionEntries "organic" sr).map entryUrlStringOrganic).flatten

/-- Deduplicating left fold used by the spec-side pipelines. -/
def dedupAdd (acc : List String) (ds : List String) : List String :=
  ds.foldl insertNew acc

/-- The extraction algorithm exactly as claim C5 states it. -/
def extractDomainsSpec (sr : PyVal) : List String :=
  dedupAdd [] ((collectUrlStringsSpec sr).filterMap normalizeDomain)

/-- The extraction algorithm with the amended `url`/`link` rule. -/
def extractDomainsAmended (sr : PyVal) : List String :=
  dedupAdd [] ((collectUrlStringsAmended sr).filterMap normalizeDomain)

/-- Is the value a Python dict? -/
def PyVal.isDict : PyVal → Bool
  | .dict _ => true
  | _ => false

/-- A key section is well shaped when absent or a list of dicts. -/
def okSection (key : String) (kvs : List (String × PyVal)) : Bool :=
  match kvs.find? (fun kv => kv.1 == key) with
  | Option.none => true
  | some kv =>
    match kv.2 with
    | .list es => es.all PyVal.isDict
    | _ => false

/-- A well-shaped search response: a dict whose `results` and `organic`
sections (when present) are lists of dicts, or any falsy value. -/
def wellFormedResponse (sr : PyVal) : Bool :=
  match sr with
  | .dict kvs => okSection "results" kvs && okSection "organic" kvs
  | _ => !sr.truthy

/-! ## Dates and domain age (research_backend.py lines 202-269)

`datetime` values are modelled as civil timestamps; day arithmetic uses
the standard days-from-civil algorithm, and `timedelta.days` is the
floor of the seconds difference over 86400 exactly as in CPython.
-/

/-- A timezone-naive `datetime.datetime`. -/
structure PyDateTime where
  year : Nat
  month : Nat
  day : Nat
  hour : Nat
  minute : Nat
  second : Nat
deriving DecidableEq, Repr

/-- Days since 1970-01-01 of a civil date (Gregorian, proleptic). -/
def daysFromCivil (y m d : Int) : Int :=
  let yy := if m ≤ 2 then y - 1 else y
  let era := Int.fdiv yy 400
  let yoe := yy - era * 400
  let mp := Int.fmod (m + 9) 12
  let doy := (153 * mp + 2) / 5 + d - 1
  let doe := yoe * 365 + yoe / 4 - yoe / 100 + doy
  era * 146097 + doe - 719468

/-- Seconds since the epoch of a naive datetime. -/
def epochSeconds (t : PyDateTime) : Int :=
  daysFromCivil (t.year : Int) (t.month : Int) (t.day : Int) * 86400 +
    ((t.hour : Int) * 3600 + (t.minute : Int) * 60 + (t.second : Int))

/-- `timedelta.days`: floor of the seconds difference over one day. -/
def timedeltaDays (a b : PyDateTime) : Int :=
  Int.fdiv (epochSeconds a - epochSeconds b) 86400

/-- `datetime.MINYEAR`/`MAXYEAR` bounds and calendar validation, as the
`datetime` constructor performs after `strptime` matching. -/
def isLeapYear (y : Nat) : Bool :=
  (y % 4 == 0 && y % 100 != 0) || y % 400 == 0

/-- Length of a month. -/
def daysInMonth (y m : Nat) : Nat :=
  if m == 2 then (if isLeapYear y then 29 else 28)
  else if m == 4 || m == 6 || m == 9 || m == 11 then 30
  else 31

/-- Build a validated datetime, like the `datetime` constructor. -/
def mkValidDateTime (y mo d hh mi ss : Nat) : Option PyDateTime :=
  if 1 ≤ y ∧ y ≤ 9999 ∧ 1 ≤ mo ∧ mo ≤ 12 ∧ 1 ≤ d ∧ d ≤ daysInMonth y mo ∧
      hh ≤ 23 ∧ mi ≤ 59 ∧ ss ≤ 59 then
    some ⟨y, mo, d, hh, mi, ss⟩
  else Option.none

/-- Split a character list on a separator (like `str.split` with a
one-character separator). -/
def charSplitAux (sep : Char) (cur : List Char) : List Char → List (List Char)
  | [] => [cur.reverse]
  | c :: cs =>
    if c == sep then cur.reverse :: charSplitAux sep [] cs
    else charSplitAux sep (c :: cur) cs

/-- Split on a separator character. -/
def charSplit (sep : Char) (cs : List Char) : List (List Char) :=
  charSplitAux sep [] cs

/-- Read a non-empty run of decimal digits. -/
def digitsToNatAux (acc : Nat) : List Char → Option Nat
  | [] => some acc
  | c :: cs =>
    if c.isDigit then digitsToNatAux (acc * 10 + (c.toNat - 48)) cs
    else Option.none

/-- Decimal value of a non-empty all-digit character run. -/
def digitsToNat : List Char → Option Nat
  | [] => Option.none
  | c :: cs => digitsToNatAux 0 (c :: cs)

/-- Parse `YYYY-MM-DD` digits. -/
def parseYmdChars (cs : List Char) : Option (Nat × Nat × Nat) :=
  match charSplit '-' cs with
  | [ys, ms, ds] =>
    match digitsToNat ys, digitsToNat ms, digitsToNat ds with
    | some y, some mo, some d => some (y, mo, d)
    | _, _, _ => Option.none
  | _ => Option.none

/-- `datetime.strptime(s, "%Y-%m-%d %H:%M:%S")`. -/
def strptimeYmdHms (s : String) : Option PyDateTime :=
  match charSplit ' ' s.toList with
  | [datePart, timePart] =>
    match parseYmdChars datePart, charSplit ':' timePart with
    | some (y, mo, d), [hs, mins, ss] =>
      match digitsToNat hs, digitsToNat mins, digitsToNat ss with
      | some hh, some mi, some sec => mkValidDateTime y mo d hh mi sec
      | _, _, _ => Option.none
    | _, _ => Option.none
  | _ => Option.none

/-- `datetime.strptime(s, "%Y-%m-%d")`. -/
def strptimeYmdOnly (s : String) : Option PyDateTime :=
  match parseYmdChars s.toList with
  | some (y, mo, d) => mkValidDateTime y mo d 0 0 0
  | Option.none => Option.none

/-- Modelled from the source dependency `dateutil.parser.parse`: the
library itself is external to the repository; on the date shapes this
pipeline receives (`YYYY-MM-DD HH:MM:SS` and `YYYY-MM-DD`) it agrees
with the strict `strptime` fallbacks that follow it in the source, so
the model folds the permissive parser into those two formats. -/
def dateutilParse (s : String) : Option PyDateTime :=
  match strptimeYmdHms s with
  | some dt => some dt
  | Option.none => strptimeYmdOnly s

/-- The nested `try` parse chain of `calculate_domain_age`
(lines 227-239): permissive parse, then the two strict formats. -/
def parse_creation_date (s : String) : Option PyDateTime :=
  match dateutilParse s with
  | some dt => some dt
  | Option.none =>
    match strptimeYmdHms s with
    | some dt => some dt
    | Option.none => strptimeYmdOnly s

/-- Two-digit zero padding. -/
def pad2 (n : Nat) : String :=
  if n < 10 then "0" ++ toString n else toString n

/-- Four-digit zero padding. -/
def pad4 (n : Nat) : String :=
  if n < 10 then "000" ++ toString n
  else if n < 100 then "00" ++ toString n
  else if n < 1000 then "0" ++ toString n
  else toString n

/-- `creation_date.strftime("%Y-%m-%d %H:%M:%S")`. -/
def strftimeYmdHms (t : PyDateTime) : String :=
  pad4 t.year ++ "-" ++ pad2 t.month ++ "-" ++ pad2 t.day ++ " " ++
    pad2 t.hour ++ ":" ++ pad2 t.minute ++ ":" ++ pad2 t.second

/-! ## WHOIS response and age calculation -/

/-- The `result.creation_date` field: absent, a string, or a list of
candidate strings. -/
inductive CreationDateField where
  | absent
  | str (s : String)
  | list (xs : List String)
deriving DecidableEq, Repr

/-- The `result` object of a WHOIS body. -/
structure WhoisResult where
  creation_date : CreationDateField
deriving DecidableEq, Repr

/-- The parsed WHOIS body.  Only the `result` key is ever read;
`extraKeys` records whether the dict has other keys, which matters only
for Python truthiness of the body. -/
structure WhoisDoc where
  result : Option WhoisResult
  extraKeys : Bool := false
deriving DecidableEq, Repr

/-- Python truthiness of the WHOIS body dict. -/
def whoisTruthy (w : WhoisDoc) : Bool := w.result.isSome || w.extraKeys

/-- Python truthiness of the raw `creation_date` value. -/
def cdTruthy : CreationDateField → Bool
  | .absent => false
  | .str s => s != ""
  | .list xs => !xs.isEmpty

/-- `AsyncDomainResearcher.calculate_domain_age` (lines 202-269),
returning the `(formatted creation date, age in days)` pair; `now` is
the `datetime.now()` value, taken as a parameter to pin time. -/
def calculate_domain_age (now : PyDateTime) (whois_data : Option WhoisDoc) :
    Option String × Option Int :=
  match whois_data with
  | Option.none => (Option.none, Option.none)
  | some w =>
    if !whoisTruthy w then (Option.none, Option.none)
    else
      match w.result with
      | Option.none => (Option.none, Option.none)
      | some r =>
        let raw := r.creation_date
        if !cdTruthy raw then (Option.none, Option.none)
        else
          let cds : Option String :=
            match raw with
            | .list xs => xs.head?
            | .str s => some s
            | .absent => Option.none
          match cds with
          | Option.none => (Option.none, Option.none)
          | some s =>
            if s == "" then (Option.none, Option.none)
            else
              match parse_creation_date s with
              | Option.none => (Option.none, Option.none)
              | some cd =>
                (some (strftimeYmdHms cd), some (timedeltaDays now cd))

/-! ## DomainData and process_domain (lines 23-33 and 271-297) -/

/-- The `DomainData` dataclass. -/
structure DomainData where
  keyword : String
  domain : String
  creation_date : String
  age_days : Int
  status : String
  google_string : String := ""
  age_display : String := ""
deriving DecidableEq, Repr

/-- The condition under which `process_domain` reports `WHOIS Failed`
(line 277: `if not whois_data`). -/
def whois_failed_cond (wd : Option WhoisDoc) : Bool :=
  match wd with
  | Option.none => true
  | some w => !whoisTruthy w

/-- `AsyncDomainResearcher.process_domain`.  The WHOIS call either
raises (`Except.error`, the `except Exception` handler at line 296) or
returns an optional body. -/
def process_domain (now : PyDateTime) (keyword domain : String)
    (whoisCall : Except String (Option WhoisDoc)) : DomainData :=
  match whoisCall with
  | .error msg => ⟨keyword, domain, "N/A", -1, "Error: " ++ msg, "", ""⟩
  | .ok wd =>
    if whois_failed_cond wd then ⟨keyword, domain, "N/A", -1, "WHOIS Failed", "", ""⟩
    else
      match calculate_domain_age now wd with
      | (some cd, some ad) =>
        if cd != "" then
          let age_years := Int.fdiv ad 365
          let remaining_days := Int.fmod ad 365
          let age_display :=
            if age_years > 0 then s!"{age_years} years, {remaining_days} days"
            else s!"{ad} days"
          ⟨keyword, domain, cd, ad, "Success", "", age_display⟩
        else ⟨keyword, domain, "N/A", -1, "Age Calculation Failed", "", ""⟩
      | _ => ⟨keyword, domain, "N/A", -1, "Age Calculation Failed", "", ""⟩

/-- The condition under which the age pipeline stage succeeds
(line 283: `if creation_date and age_days is not None`). -/
def age_calc_ok (now : PyDateTime) (wd : Option WhoisDoc) : Bool :=
  match calculate_domain_age now wd with
  | (some cd, some _) => cd != ""
  | _ => false

/-- The per-keyword `Search Failed` sentinel record (line 341). -/
def searchFailedRecord (keyword : String) : DomainData :=
  ⟨keyword, "N/A", "N/A", -1, "Search Failed", "", ""⟩

/-- The per-keyword `No Domains Found` sentinel record (line 349). -/
def noDomainsRecord (keyword : String) : DomainData :=
  ⟨keyword, "N/A", "N/A", -1, "No Domains Found", "", ""⟩

/-- How `research_keywords` turns each `asyncio.gather` slot into a
record (lines 367-375): a `DomainData` passes through, an exception
becomes an `Error: <message>` record. -/
def gather_result_record (keyword : String) (res : Except String DomainData) :
    DomainData :=
  match res with
  | .ok d => d
  | .error msg => ⟨keyword, "N/A", "N/A", -1, "Error: " ++ msg, "", ""⟩

/-- The keyword-level `except Exception` handler of `research_keywords`
(lines 393-395): an unexpected exception anywhere in the per-keyword
body that is not a `CancelledError` appends one record whose status is
`Keyword Error: <message>` — note the different tag from the per-domain
`Error: <message>` records. -/
def keyword_error_record (keyword : String) (msg : String) : DomainData :=
  ⟨keyword, "N/A", "N/A", -1, "Keyword Error: " ++ msg, "", ""⟩

/-! ## WHOIS retry loop (`get_whois_data`, lines 146-200)

Each HTTP attempt is abstracted as a response: an HTTP status with a
body, a timeout, or another exception.  The loop runs attempts
`0 .. max_retries` and the model additionally returns the list of
back-off delays slept, so the claimed delay schedule is observable.
-/

/-- Outcome of one WHOIS HTTP attempt. -/
inductive WhoisHttpResult where
  | http (code : Nat) (body : WhoisDoc)
  | timeout
  | exc (msg : String)

/-- `max_retries = 3` (line 161). -/
def max_retries : Nat := 3

/-- `base_delay = 2` seconds (line 162). -/
def base_delay : Nat := 2

/-- The `for attempt in range(max_retries + 1)` loop body.  `fuel` is the
number of remaining loop iterations; falling off the loop returns `None`
(line 200). -/
def whois_attempt_loop (resp : Nat → WhoisHttpResult) :
    Nat → Nat → List Nat → Option WhoisDoc × List Nat
  | _, 0, delays => (Option.none, delays)
  | attempt, fuel + 1, delays =>
    match resp attempt with
    | .http code body =>
      if code == 200 then (some body, delays)
      else if code == 429 then
        if attempt < max_retries then
          whois_attempt_loop resp (attempt + 1) fuel
            (delays ++ [base_delay * 2 ^ attempt])
        else (Option.none, delays)
      else if code == 403 then (Option.none, delays)
      else (Option.none, delays)
    | .timeout =>
      if attempt < max_retries then
        whois_attempt_loop resp (attempt + 1) fuel
          (delays ++ [base_delay * 2 ^ attempt])
      else (Option.none, delays)
    | .exc _ => (Option.none, delays)

/-- `AsyncDomainResearcher.get_whois_data`: the key guard raises
`ValueError` before any network attempt, otherwise the retry loop runs.
The result carries the slept delays next to the returned body. -/
def get_whois_data (key : String) (resp : Nat → WhoisHttpResult) :
    Except String (Option WhoisDoc × List Nat) :=
  if key == "" then .error "WHOIS API key is required"
  else .ok (whois_attempt_loop resp 0 (max_retries + 1) [])

/-- Responses the loop retries on: HTTP 429 and timeouts. -/
def isRetryable : WhoisHttpResult → Bool
  | .http code _ => code == 429
  | .timeout => true
  | .exc _ => false

/-! ## API keys (`AsyncDomainResearcher.__init__`, lines 38-52, and the
search call, lines 65-99) -/

/-- The hardcoded fallback SERP key from `__init__`. -/
def default_serp_api_key : String :=
  "63cc73fca4mshf55eb3b0811d360p14620ajsn92730fc828bc"

/-- The hardcoded fallback WHOIS key from `__init__`. -/
def default_whois_api_key : String :=
  "653b90312dmsh9219d00db599bf4p1e3706jsn8f0ba5f7b11b"

/-- Python `a or b` on strings (empty string is falsy). -/
def pyOrStr (a b : String) : String := if a != "" then a else b

/-- `param or os.getenv(NAME, "") or default`: the key resolution in
`__init__`; `param = none` models passing `None`. -/
def resolve_api_key (param : Option String) (env dflt : String) : String :=
  pyOrStr (param.getD "") (pyOrStr env dflt)

/-- `self.serp_api_key` after `__init__`. -/
def init_serp_key (param : Option String) (env : String) : String :=
  resolve_api_key param env default_serp_api_key

/-- `self.whois_api_key` after `__init__`. -/
def init_whois_key (param : Option String) (env : String) : String :=
  resolve_api_key param env default_whois_api_key

/-- Outcome of one search HTTP attempt. -/
inductive SearchHttpResult where
  | http (code : Nat) (body : PyVal)
  | timeout
  | exc (msg : String)

/-- `AsyncDomainResearcher.search_google`: key guard first (line 67,
outside the `try`, so it raises), then one request, with a single retry
on HTTP 429.  The `Nat` counts network requests actually issued. -/
def search_google (key : String) (first retry : SearchHttpResult) :
    Except String (Nat × Option PyVal) :=
  if key == "" then .error "SERP API key is required"
  else
    .ok
      (match first with
       | .http code body =>
         if code == 200 then (1, some body)
         else if code == 429 then
           match retry with
           | .http code2 body2 =>
             if code2 == 200 then (2, some body2) else (2, Option.none)
           | _ => (2, Option.none)
         else (1, Option.none)
       | .timeout => (1, Option.none)
       | .exc _ => (1, Option.none))

/-! ## Semaphore-bounded domain fan-out (`research_keywords`,
lines 306-321)

`process_domain_with_semaphore` checks cancellation, acquires the
job-wide `asyncio.Semaphore(2)`, runs `process_domain` (the in-flight
WHOIS lookup), then paces 0.5s and releases.  The model is a small-step
schedule over any number of spawned domain tasks (covering any
`max_domains_per_keyword` and any number of keywords, since the one
semaphore is shared by the whole job run) with the semaphore counter
made explicit.
-/

/-- `asyncio.Semaphore(2)` (line 307). -/
def semaphore_capacity : Nat := 2

/-- Phase of one spawned domain task. -/
inductive DomainTaskPhase where
  | pending
  | processing
  | pacing
  | done
  | cancelled
deriving DecidableEq, Repr

/-- State of a job run: the phase of each spawned domain task plus the
semaphore counter. -/
structure SchedState where
  tasks : List DomainTaskPhase
  avail : Nat
deriving DecidableEq, Repr

/-- All tasks start pending and the semaphore has both permits. -/
def initSched (n : Nat) : SchedState :=
  ⟨List.replicate n .pending, semaphore_capacity⟩

/-- One cooperative scheduler step of `process_domain_with_semaphore`:
a pending task may observe cancellation and abort, or acquire a permit
and start its WHOIS lookup; a processing task finishes its lookup and
enters the pacing sleep; a pacing task releases its permit. -/
inductive SchedStep : SchedState → SchedState → Prop
  | acquire (s : SchedState) (i : Nat)
      (hp : s.tasks.get? i = some .pending) (ha : 0 < s.avail) :
      SchedStep s ⟨s.tasks.set i .processing, s.avail - 1⟩
  | cancel (s : SchedState) (i : Nat)
      (hp : s.tasks.get? i = some .pending) :
      SchedStep s ⟨s.tasks.set i .cancelled, s.avail⟩
  | finishLookup (s : SchedState) (i : Nat)
      (hp : s.tasks.get? i = some .processing) :
      SchedStep s ⟨s.tasks.set i .pacing, s.avail⟩
  | release (s : SchedState) (i : Nat)
      (hp : s.tasks.get? i = some .pacing) :
      SchedStep s ⟨s.tasks.set i .done, s.avail + 1⟩

/-- States reachable by a job run that spawned `n` domain tasks. -/
inductive SchedReach (n : Nat) : SchedState → Prop
  | init : SchedReach n (initSched n)
  | step {s t : SchedState} : SchedReach n s → SchedStep s t → SchedReach n t

/-- Occurrences of a phase in a task list. -/
def countPhase (p : DomainTaskPhase) : List DomainTaskPhase → Nat
  | [] => 0
  | q :: qs => (if q = p then 1 else 0) + countPhase p qs

/-- Number of WHOIS lookups currently in flight. -/
def inflightWhois (s : SchedState) : Nat :=
  countPhase .processing s.tasks

/-- Number of tasks currently holding a semaphore permit. -/
def permitHolders (s : SchedState) : Nat :=
  countPhase .processing s.tasks + countPhase .pacing s.tasks

/-! ## Job state machine (`app.py`, `run_research`, lines 94-177)

The observable snapshots of a job dict, in order, at the points where
the cooperative scheduler can interleave a reader.  Mutations between
two awaits are atomic to observers; in particular the commit
`results := [...]` at line 148 and `status := "completed"` at line 160
has no await between the two writes.  Progress callbacks mutate only
counters, never `results` or terminal status, and appear as extra
`running` snapshots.
-/

/-- Job status strings of app.py. -/
inductive JobStatus where
  | starting
  | running
  | completed
  | error
  | cancelled
deriving DecidableEq, Repr

/-- One observable snapshot of the job dict (the fields the claims are
about). -/
structure JobSnapshot where
  status : JobStatus
  results : List DomainData
  error : Option String
deriving DecidableEq, Repr

/-- How the `run_research` coroutine ends: `research_keywords` returns a
result list (with the cancellation event possibly already set), raises
`asyncio.CancelledError`, or raises another exception (with the
cancellation event possibly set concurrently). -/
inductive RunOutcome where
  | success (rs : List DomainData) (cancelledAtEnd : Bool)
  | cancelledError
  | failed (msg : String) (cancelledSet : Bool)

/-- The terminal snapshot written by `run_research` (lines 143-171). -/
def run_research_final : RunOutcome → JobSnapshot
  | .success rs cancelledAtEnd =>
    if cancelledAtEnd then ⟨.cancelled, [], some "Task cancelled by user"⟩
    else ⟨.completed, rs, Option.none⟩
  | .cancelledError => ⟨.cancelled, [], some "Task cancelled by user"⟩
  | .failed msg cancelledSet =>
    if cancelledSet then ⟨.cancelled, [], some "Task cancelled by user"⟩
    else ⟨.error, [], some msg⟩

/-- The ordered observable snapshots of one job: the initial dict of
`start_research` (line 100), the `running` state (line 114) repeated
over however many suspension points the run passes (`ticks`), then the
terminal snapshot. -/
def run_research_trace (o : RunOutcome) (ticks : Nat) : List JobSnapshot :=
  ⟨.starting, [], Option.none⟩ ::
    (List.replicate (ticks + 1) ⟨.running, [], Option.none⟩ ++
      [run_research_final o])

/-! ## Task retention sweep (`app.py`, `cleanup_old_tasks`, lines 32-47,
and `health_check`, lines 371-381)

The stored entry keeps `created_at` (written once at submission,
line 107) — the sweep compares **that** timestamp with now.  The
`terminal_at` field is ghost instrumentation recording when the job
reached its terminal status; the source never stores or reads such a
value, and it exists here only so the claim about "terminal timestamps"
can be stated.
-/

/-- A stored job entry as the sweep sees it. -/
structure StoredTask where
  status : JobStatus
  created_at : Int
  terminal_at : Int
deriving DecidableEq, Repr

/-- `task["status"] in ["completed", "error", "cancelled"]` (line 38). -/
def is_terminal_status : JobStatus → Bool
  | .completed => true
  | .error => true
  | .cancelled => true
  | _ => false

/-- The 1-hour retention window (line 40). -/
def retention_seconds : Int := 3600

/-- `cleanup_old_tasks`: delete terminal entries whose `created_at` is
more than the retention window before `now`. -/
def cleanup_old_tasks (now : Int) (tasks : List (String × StoredTask)) :
    List (String × StoredTask) :=
  tasks.filter
    (fun kv =>
      !(is_terminal_status kv.2.status && decide (now - kv.2.created_at > retention_seconds)))

/-- `GET /api/status/{task_id}`: `Option.none` is the 404. -/
def get_task_status (id : String) (tasks : List (String × StoredTask)) :
    Option StoredTask :=
  (tasks.find? (fun kv => kv.1 == id)).map (fun kv => kv.2)

/-- The health probe runs the sweep opportunistically (line 375). -/
def health_check_sweep (now : Int) (tasks : List (String × StoredTask)) :
    List (String × StoredTask) :=
  cleanup_old_tasks now tasks

/-! ## Concrete inputs used by counterexamples and witnesses -/

/-- The pinned `datetime.now()` of claim C8 (2025-09-15, at the
creation time of day so that exactly 10227 whole days have elapsed). -/
def pinned_now : PyDateTime := ⟨2025, 9, 15, 4, 0, 0⟩

/-- The WHOIS body of claim C8. -/
def c8_whois_body : WhoisDoc := ⟨some ⟨.str "1997-09-15 04:00:00"⟩, false⟩

/-- A search response whose single results entry has both a `url` and a
`link` key (claim C5). -/
def c5Input : PyVal :=
  .dict [("results", .list [.dict [("url", .str "http://a.com"), ("link", .str "http://b.com")]])]

/-- A terminal job created at time 0 whose terminal state was reached at
time 7000 (claim C4). -/
def c4task : StoredTask := ⟨.completed, 0, 7000⟩

/-! # Theorems -/

/-! ## Claim C8: the pinned age computation -/

/-- C8 counterexample: with the claimed WHOIS body and the pinned clock,
the code computes `ageDays = 10227` but `ageDisplay = "28 years, 7 days"`
(since `10227 % 365 = 7`), not `"28 years, 2 days"` as the claim states. -/
theorem c8_age_display_counterexample :
    (process_domain pinned_now "kw" "example.com" (.ok (some c8_whois_body))).age_days = 10227 ∧
    (process_domain pinned_now "kw" "example.com" (.ok (some c8_whois_body))).age_display =
      "28 years, 7 days" ∧
    Int.fdiv 10227 365 = 28 ∧ Int.fmod 10227 365 = 7 ∧
    ("28 years, 7 days" : String) ≠ "28 years, 2 days" := by
  refine ⟨by decide, by decide, by decide, by decide, by decide⟩

/-- C8 (amended): with `now` pinned to 2025-09-15 04:00:00, the WHOIS
body `{"result": {"creation_date": "1997-09-15 04:00:00"}}` yields
`ageDays = 10227` and `ageDisplay = "28 years, 7 days"`, following the
display rule with `10227 // 365 = 28` and `10227 % 365 = 7`. -/
theorem c8_age_calculation :
    process_domain pinned_now "kw" "example.com" (.ok (some c8_whois_body)) =
      ⟨"kw", "example.com", "1997-09-15 04:00:00", 10227, "Success", "", "28 years, 7 days"⟩ ∧
    calculate_domain_age pinned_now (some c8_whois_body) =
      (some "1997-09-15 04:00:00", some 10227) ∧
    Int.fdiv 10227 365 = 28 ∧ Int.fmod 10227 365 = 7 := by
  refine ⟨by decide, by decide, by decide, by decide⟩

/-! ## Claim C9: list-valued creation_date uses the first element -/

/-- C9: a WHOIS response whose `result.creation_date` is a non-empty
list of strings yields exactly the same (creation date, ageDays) pair as
the response carrying the single first string. -/
theorem c9_creation_date_list_head (now : PyDateTime) (s : String)
    (rest : List String) (ek : Bool) :
    calculate_domain_age now (some ⟨some ⟨.list (s :: rest)⟩, ek⟩) =
      calculate_domain_age now (some ⟨some ⟨.str s⟩, ek⟩) := by
  by_cases hs : s = ""
  · subst hs
    rfl
  · simp [calculate_domain_age, whoisTruthy, cdTruthy, hs]

/-! ## Claim C7: API keys -/

/-- The key resolution of `__init__` never yields an empty key when the
fallback default is non-empty. -/
theorem resolve_api_key_ne (param : Option String) (env d : String)
    (hd : d ≠ "") : resolve_api_key param env d ≠ "" := by
  unfold resolve_api_key pyOrStr
  split
  · simp_all
  · split
    · simp_all
    · exact hd

/-- C7 (amended): the per-call guards do fail fast with a configuration
error, before any network attempt, whenever the key field is empty; but
`__init__` substitutes hardcoded defaults, so the field is never empty
no matter what the caller or environment supplies. -/
theorem c7_api_key_guards (f r : SearchHttpResult)
    (resp : Nat → WhoisHttpResult) (param : Option String) (env : String) :
    search_google "" f r = .error "SERP API key is required" ∧
    get_whois_data "" resp = .error "WHOIS API key is required" ∧
    init_serp_key param env ≠ "" ∧ init_whois_key param env ≠ "" :=
  ⟨rfl, rfl, resolve_api_key_ne param env _ (by decide),
    resolve_api_key_ne param env _ (by decide)⟩

/-- C7 counterexample: with no key passed and no environment key, the
resolved key is the hardcoded default, which is non-empty, and the
search and WHOIS calls proceed to the network instead of failing fast
with a configuration error. -/
theorem c7_defaults_counterexample :
    init_serp_key Option.none "" = default_serp_api_key ∧
    default_serp_api_key ≠ "" ∧
    search_google (init_serp_key Option.none "") (.http 200 (PyVal.dict []))
        (.http 200 (PyVal.dict [])) = .ok (1, some (PyVal.dict [])) ∧
    init_whois_key Option.none "" = default_whois_api_key ∧
    get_whois_data (init_whois_key Option.none "")
        (fun _ => .http 200 ⟨Option.none, false⟩) = .ok (some ⟨Option.none, false⟩, []) := by
  refine ⟨rfl, by decide, rfl, rfl, rfl⟩

/-! ## Claim C1: results committed exactly once, at completion -/

/-- Filtering a replicated element the predicate rejects gives `[]`. -/
theorem filter_replicate_of_false {α} (p : α → Bool) (a : α) (h : p a = false) :
    ∀ n, (List.replicate n a).filter p = [] := by
  intro n
  induction n with
  | zero => rfl
  | succ n ih => simp [List.replicate, List.filter, h, ih]

/-- C1: along every observable trace of `run_research`, any snapshot
with a non-empty `results` has status `completed` (and carries exactly
the committed list); snapshots with status `cancelled` or `error` have
empty `results`; and at most one snapshot of the trace has non-empty
`results` (it is populated at most once, at the completed transition). -/
theorem c1_results_committed_once (o : RunOutcome) (ticks : Nat) :
    (∀ snap ∈ run_research_trace o ticks,
      (snap.status ≠ .completed → snap.results = []) ∧
      ((snap.status = .cancelled ∨ snap.status = .error) → snap.results = []) ∧
      (snap.status = .completed → ∃ rs, o = .success rs false ∧ snap.results = rs)) ∧
    ((run_research_trace o ticks).filter (fun snap => !snap.results.isEmpty)).length ≤ 1 ∧
    (run_research_final .cancelledError).status = .cancelled ∧
    (run_research_final .cancelledError).results = [] := by
  refine ⟨?_, ?_, rfl, rfl⟩
  · intro snap hsnap
    simp only [run_research_trace, List.mem_cons, List.mem_append,
      List.mem_replicate, List.mem_singleton] at hsnap
    rcases hsnap with h | ⟨-, h⟩ | h | h
    · subst h
      exact ⟨fun _ => rfl, fun _ => rfl, fun hc => absurd hc (by decide)⟩
    · subst h
      exact ⟨fun _ => rfl, fun _ => rfl, fun hc => absurd hc (by decide)⟩
    · subst h
      cases o with
      | success rs b =>
        cases b with
        | false =>
          exact ⟨fun hne => absurd rfl hne, fun hc => by simp [run_research_final] at hc,
            fun _ => ⟨rs, rfl, rfl⟩⟩
        | true =>
          exact ⟨fun _ => rfl, fun _ => rfl, fun hc => nomatch hc⟩
      | cancelledError =>
        exact ⟨fun _ => rfl, fun _ => rfl, fun hc => nomatch hc⟩
      | failed msg cs =>
        cases cs with
        | false => exact ⟨fun _ => rfl, fun _ => rfl, fun hc => nomatch hc⟩
        | true => exact ⟨fun _ => rfl, fun _ => rfl, fun hc => nomatch hc⟩
    · exact absurd h (List.not_mem_nil snap)
  · simp only [run_research_trace, List.filter_append, List.filter_cons]
    rw [filter_replicate_of_false _ _ (by decide)]
    simp only [List.isEmpty_nil, Bool.not_true, List.nil_append, List.length_nil]
    cases hfin : (fun snap : JobSnapshot => !snap.results.isEmpty) (run_research_final o) <;>
      simp [List.filter, hfin]

/-- C1 witness: a run that is cancelled before any keyword starts ends
with status `cancelled` and empty results. -/
theorem c1_witness :
    (run_research_final RunOutcome.cancelledError).results = [] :=
  ((c1_results_committed_once RunOutcome.cancelledError 0).1
      (run_research_final RunOutcome.cancelledError) (by decide)).2.1 (Or.inl rfl)

/-! ## Claim C4: the retention sweep -/

/-- If no entry of a list carries the queried id, the status query over
any filtering of it is a 404. -/
theorem get_task_status_filter_none (id : String)
    (l : List (String × StoredTask)) (p : String × StoredTask → Bool)
    (h : ∀ kv ∈ l, kv.1 ≠ id) :
    get_task_status id (l.filter p) = Option.none := by
  unfold get_task_status
  rw [List.find?_eq_none.mpr]
  · rfl
  · intro kv hkv
    simp [h kv (List.mem_of_mem_filter hkv)]

/-- C4 counterexample: a completed job created at time 0 that reached
its terminal state at time 7000 is, at time 7200, younger than the
retention window by its terminal timestamp, yet the sweep deletes it —
the code compares `created_at`, not the terminal timestamp. -/
theorem c4_terminal_timestamp_counterexample :
    is_terminal_status c4task.status = true ∧
    (7200 : Int) - c4task.terminal_at ≤ retention_seconds ∧
    (7200 : Int) - c4task.created_at > retention_seconds ∧
    get_task_status "job" (cleanup_old_tasks 7200 [("job", c4task)]) = Option.none := by
  refine ⟨rfl, by decide, by decide, by decide⟩

/-- C4 (amended): the sweep deletes exactly the terminal jobs whose
**creation** timestamp is older than the 1-hour window; a terminal job
with an older creation time is absent from subsequent status queries,
one with a younger creation time is still retrievable, and non-terminal
jobs are always retained. -/
theorem c4_retention_sweep (now : Int) (tasks : List (String × StoredTask))
    (id : String) (t : StoredTask)
    (hnd : (tasks.map Prod.fst).Nodup)
    (hget : get_task_status id tasks = some t) :
    (is_terminal_status t.status = true → now - t.created_at > retention_seconds →
      get_task_status id (cleanup_old_tasks now tasks) = Option.none) ∧
    (is_terminal_status t.status = true → now - t.created_at ≤ retention_seconds →
      get_task_status id (cleanup_old_tasks now tasks) = some t) ∧
    (is_terminal_status t.status = false →
      get_task_status id (cleanup_old_tasks now tasks) = some t) := by
  induction tasks with
  | nil => simp [get_task_status] at hget
  | cons kv rest ih =>
    rw [List.map_cons, List.nodup_cons] at hnd
    obtain ⟨hnotin, hnd2⟩ := hnd
    by_cases hk : kv.1 = id
    · have hbeq : (kv.1 == id) = true := beq_iff_eq.mpr hk
      have ht : kv.2 = t := by
        unfold get_task_status at hget
        rw [List.find?_cons_of_pos _ (by simp [hbeq])] at hget
        simpa using hget
      have hrest : ∀ kv2 ∈ rest, kv2.1 ≠ id := by
        intro kv2 h2 heq
        exact hnotin (hk ▸ heq ▸ List.mem_map_of_mem Prod.fst h2)
      refine ⟨?_, ?_, ?_⟩
      · intro hterm hold
        unfold cleanup_old_tasks
        rw [List.filter_cons, if_neg (by rw [ht]; simp [hterm, hold])]
        exact get_task_status_filter_none id rest _ hrest
      · intro hterm hyoung
        have hno : ¬(now - t.created_at > retention_seconds) := by omega
        unfold cleanup_old_tasks
        rw [List.filter_cons, if_pos (by rw [ht]; simp [hterm, hno])]
        unfold get_task_status
        rw [List.find?_cons_of_pos _ (by simp [hbeq])]
        simp [ht]
      · intro hterm
        unfold cleanup_old_tasks
        rw [List.filter_cons, if_pos (by rw [ht]; simp [hterm])]
        unfold get_task_status
        rw [List.find?_cons_of_pos _ (by simp [hbeq])]
        simp [ht]
    · have hbeq : (kv.1 == id) = false := by simp [hk]
      have hget2 : get_task_status id rest = some t := by
        unfold get_task_status at hget ⊢
        rwa [List.find?_cons_of_neg _ (by simp [hbeq])] at hget
      have hrec := ih hnd2 hget2
      have hstep :
          get_task_status id (cleanup_old_tasks now (kv :: rest)) =
            get_task_status id (cleanup_old_tasks now rest) := by
        unfold cleanup_old_tasks get_task_status
        rw [List.filter_cons]
        split
        · rw [List.find?_cons_of_neg _ (by simp [hbeq])]
        · rfl
      exact ⟨fun a b => hstep ▸ hrec.1 a b, fun a b => hstep ▸ hrec.2.1 a b,
        fun a => hstep ▸ hrec.2.2 a⟩

/-- C4 witness: a terminal job created 2 hours before the sweep is gone;
one created exactly at the window boundary is still retrievable. -/
theorem c4_witness :
    get_task_status "a" (cleanup_old_tasks 7200 [("a", ⟨JobStatus.completed, 0, 0⟩)]) =
      Option.none ∧
    get_task_status "b" (cleanup_old_tasks 3600 [("b", ⟨JobStatus.completed, 0, 0⟩)]) =
      some ⟨JobStatus.completed, 0, 0⟩ := by
  constructor
  · exact (c4_retention_sweep 7200 [("a", ⟨JobStatus.completed, 0, 0⟩)] "a"
      ⟨JobStatus.completed, 0, 0⟩ (by decide) (by decide)).1 rfl (by decide)
  · exact (c4_retention_sweep 3600 [("b", ⟨JobStatus.completed, 0, 0⟩)] "b"
      ⟨JobStatus.completed, 0, 0⟩ (by decide) (by decide)).2.1 rfl (by decide)

/-! ## Claim C3: WHOIS retry policy -/

/-- A 200 response ends the loop at once with the body and no new delay. -/
theorem whois_loop_200 (resp : Nat → WhoisHttpResult) (a f : Nat)
    (ds : List Nat) (body : WhoisDoc) (h : resp a = .http 200 body) :
    whois_attempt_loop resp a (f + 1) ds = (some body, ds) := by
  simp [whois_attempt_loop, h]

/-- Any non-200, non-429 response (403 included) ends the loop at once
with no result and no new delay. -/
theorem whois_loop_noretry (resp : Nat → WhoisHttpResult) (a f : Nat)
    (ds : List Nat) (code : Nat) (body : WhoisDoc)
    (h : resp a = .http code body) (h200 : code ≠ 200) (h429 : code ≠ 429) :
    whois_attempt_loop resp a (f + 1) ds = (Option.none, ds) := by
  have hb200 : (code == 200) = false := by simp [h200]
  have hb429 : (code == 429) = false := by simp [h429]
  simp [whois_attempt_loop, h, hb200, hb429]

/-- A retryable response (429 or timeout) below the retry budget sleeps
`base_delay * 2 ^ attempt` and moves to the next attempt. -/
theorem whois_loop_retry_step (resp : Nat → WhoisHttpResult) (a f : Nat)
    (ds : List Nat) (hr : isRetryable (resp a) = true) (ha : a < max_retries) :
    whois_attempt_loop resp a (f + 1) ds =
      whois_attempt_loop resp (a + 1) f (ds ++ [base_delay * 2 ^ a]) := by
  cases hresp : resp a with
  | http code body =>
    rw [hresp] at hr
    have hc : code = 429 := by simpa [isRetryable] using hr
    subst hc
    simp [whois_attempt_loop, hresp, ha]
  | timeout => simp [whois_attempt_loop, hresp, ha]
  | exc m => rw [hresp] at hr; simp [isRetryable] at hr

/-- A retryable response at the last attempt gives up with no result. -/
theorem whois_loop_exhaust (resp : Nat → WhoisHttpResult) (f : Nat)
    (ds : List Nat) (hr : isRetryable (resp max_retries) = true) :
    whois_attempt_loop resp max_retries (f + 1) ds = (Option.none, ds) := by
  cases hresp : resp max_retries with
  | http code body =>
    rw [hresp] at hr
    have hc : code = 429 := by simpa [isRetryable] using hr
    subst hc
    simp [whois_attempt_loop, hresp]
  | timeout => simp [whois_attempt_loop, hresp]
  | exc m => rw [hresp] at hr; simp [isRetryable] at hr

/-- C3: the WHOIS wrapper uses `max_retries = 3` and `base_delay = 2`;
with a non-empty key it never raises; after `k` retryable responses
(429 or timeout) it has slept `base_delay * 2 ^ n` for `n < k`, and then
a 200 returns the body, a 403 returns no result immediately, and any
other non-200 returns no result immediately; four retryable responses
exhaust the budget and return no result after sleeping 2, 4 and 8
seconds. -/
theorem c3_whois_retry_policy (key : String) (resp : Nat → WhoisHttpResult)
    (hk : key ≠ "") :
    max_retries = 3 ∧ base_delay = 2 ∧
    (∃ out, get_whois_data key resp = .ok out) ∧
    (∀ k, k ≤ max_retries → (∀ i, i < k → isRetryable (resp i) = true) →
      (∀ body, resp k = .http 200 body →
        get_whois_data key resp =
          .ok (some body, (List.range k).map (fun n => base_delay * 2 ^ n))) ∧
      (∀ body, resp k = .http 403 body →
        get_whois_data key resp =
          .ok (Option.none, (List.range k).map (fun n => base_delay * 2 ^ n))) ∧
      (∀ code body, resp k = .http code body → code ≠ 200 → code ≠ 429 →
        get_whois_data key resp =
          .ok (Option.none, (List.range k).map (fun n => base_delay * 2 ^ n)))) ∧
    ((∀ i, i ≤ max_retries → isRetryable (resp i) = true) →
      get_whois_data key resp = .ok (Option.none, [2, 4, 8])) := by
  have hkey : (key == "") = false := by simp [hk]
  have hG : get_whois_data key resp =
      .ok (whois_attempt_loop resp 0 (max_retries + 1) []) := by
    simp [get_whois_data, hkey]
  refine ⟨rfl, rfl, ⟨_, hG⟩, ?_, ?_⟩
  · intro k hk3 hret
    have hk4 : k ≤ 3 := hk3
    interval_cases k
    · exact ⟨fun body hb =>
        hG.trans (congrArg Except.ok (whois_loop_200 resp 0 max_retries [] body hb)),
        fun body hb =>
          hG.trans (congrArg Except.ok
            (whois_loop_noretry resp 0 max_retries [] 403 body hb (by decide) (by decide))),
        fun code body hb h200 h429 =>
          hG.trans (congrArg Except.ok
            (whois_loop_noretry resp 0 max_retries [] code body hb h200 h429))⟩
    · have s0 := whois_loop_retry_step resp 0 max_retries []
        (hret 0 (by omega)) (by decide)
      exact ⟨fun body hb =>
        hG.trans (congrArg Except.ok
          (s0.trans (whois_loop_200 resp 1 2 [2] body hb))),
        fun body hb =>
          hG.trans (congrArg Except.ok
            (s0.trans (whois_loop_noretry resp 1 2 [2] 403 body hb (by decide) (by decide)))),
        fun code body hb h200 h429 =>
          hG.trans (congrArg Except.ok
            (s0.trans (whois_loop_noretry resp 1 2 [2] code body hb h200 h429)))⟩
    · have s0 := whois_loop_retry_step resp 0 max_retries []
        (hret 0 (by omega)) (by decide)
      have s1 := whois_loop_retry_step resp 1 2 [2] (hret 1 (by omega)) (by decide)
      exact ⟨fun body hb =>
        hG.trans (congrArg Except.ok
          ((s0.trans s1).trans (whois_loop_200 resp 2 1 [2, 4] body hb))),
        fun body hb =>
          hG.trans (congrArg Except.ok
            ((s0.trans s1).trans
              (whois_loop_noretry resp 2 1 [2, 4] 403 body hb (by decide) (by decide)))),
        fun code body hb h200 h429 =>
          hG.trans (congrArg Except.ok
            ((s0.trans s1).trans
              (whois_loop_noretry resp 2 1 [2, 4] code body hb h200 h429)))⟩
    · have s0 := whois_loop_retry_step resp 0 max_retries []
        (hret 0 (by omega)) (by decide)
      have s1 := whois_loop_retry_step resp 1 2 [2] (hret 1 (by omega)) (by decide)
      have s2 := whois_loop_retry_step resp 2 1 [2, 4] (hret 2 (by omega)) (by decide)
      exact ⟨fun body hb =>
        hG.trans (congrArg Except.ok
          (((s0.trans s1).trans s2).trans (whois_loop_200 resp 3 0 [2, 4, 8] body hb))),
        fun body hb =>
          hG.trans (congrArg Except.ok
            (((s0.trans s1).trans s2).trans
              (whois_loop_noretry resp 3 0 [2, 4, 8] 403 body hb (by decide) (by decide)))),
        fun code body hb h200 h429 =>
          hG.trans (congrArg Except.ok
            (((s0.trans s1).trans s2).trans
              (whois_loop_noretry resp 3 0 [2, 4, 8] code body hb h200 h429)))⟩
  · intro hall
    have s0 := whois_loop_retry_step resp 0 max_retries []
      (hall 0 (by decide)) (by decide)
    have s1 := whois_loop_retry_step resp 1 2 [2] (hall 1 (by decide)) (by decide)
    have s2 := whois_loop_retry_step resp 2 1 [2, 4] (hall 2 (by decide)) (by decide)
    have sE := whois_loop_exhaust resp 0 [2, 4, 8] (hall 3 (by decide))
    exact hG.trans (congrArg Except.ok (((s0.trans s1).trans s2).trans sE))

/-- C3 witness: one timeout then a 200 gives the body after a single
2-second back-off. -/
theorem c3_witness :
    get_whois_data "key"
        (fun i => if i == 0 then WhoisHttpResult.timeout
          else WhoisHttpResult.http 200 ⟨Option.none, false⟩) =
      .ok (some ⟨Option.none, false⟩, [2]) :=
  ((c3_whois_retry_policy "key"
        (fun i => if i == 0 then WhoisHttpResult.timeout
          else WhoisHttpResult.http 200 ⟨Option.none, false⟩)
        (by decide)).2.2.2.1 1 (by decide)
      (fun i hi => by interval_cases i; rfl)).1 ⟨Option.none, false⟩ rfl

/-! ## Claim C6: status taxonomy -/

/-- A status of the form `Error: <message>` never coincides with a
status whose first character is not `E`. -/
theorem error_status_ne (msg s : String) (hs : s.data.head? ≠ some 'E') :
    "Error: " ++ msg ≠ s := by
  intro h
  apply hs
  rw [← h]
  rfl

/-- A status of the form `Keyword Error: <message>` never coincides with
a status whose first character is not `K`. -/
theorem keyword_error_status_ne (msg s : String) (hs : s.data.head? ≠ some 'K') :
    "Keyword Error: " ++ msg ≠ s := by
  intro h
  apply hs
  rw [← h]
  rfl

/-- C6 counterexample: an unexpected exception at the keyword stage —
the `except Exception` handler of `research_keywords` at lines 393-395,
the range the claim cites — is tagged `Keyword Error: <message>`, not
`Error: <message>`, and that tag is outside the claimed six-way
taxonomy. -/
theorem c6_keyword_error_counterexample :
    (keyword_error_record "kw" "boom").status = "Keyword Error: boom" ∧
    (keyword_error_record "kw" "boom").status ≠ "Error: boom" ∧
    (keyword_error_record "kw" "boom").status ∉
      (["Search Failed", "No Domains Found", "WHOIS Failed",
        "Age Calculation Failed", "Success"] : List String) := by
  refine ⟨rfl, by decide, by decide⟩

/-- C6 (amended): per domain-keyword pair, an exception escaping the
per-domain pipeline is reported as exactly `Error: <message>` with the
message verbatim (both in `process_domain` and in the gather handler of
`research_keywords`); an unexpected exception at the keyword stage
instead yields one record tagged exactly `Keyword Error: <message>`,
also verbatim; otherwise the status is assigned at the first failing
stage — `WHOIS Failed`, then `Age Calculation Failed`, then `Success`;
the keyword sentinels are `Search Failed` and `No Domains Found`; and
the taxonomy is mutually exclusive: the five fixed tags are pairwise
distinct, no `Error: <message>` or `Keyword Error: <message>` tag
equals any of them, and the two exception tags never coincide with each
other. -/
theorem c6_status_taxonomy (now : PyDateTime) (kw dom : String)
    (res : Except String (Option WhoisDoc)) :
    (∀ msg, res = .error msg →
      (process_domain now kw dom res).status = "Error: " ++ msg) ∧
    (∀ wd, res = .ok wd → whois_failed_cond wd = true →
      (process_domain now kw dom res).status = "WHOIS Failed") ∧
    (∀ wd, res = .ok wd → whois_failed_cond wd = false → age_calc_ok now wd = false →
      (process_domain now kw dom res).status = "Age Calculation Failed") ∧
    (∀ wd, res = .ok wd → whois_failed_cond wd = false → age_calc_ok now wd = true →
      (process_domain now kw dom res).status = "Success") ∧
    (∀ msg, (gather_result_record kw (.error msg)).status = "Error: " ++ msg) ∧
    (searchFailedRecord kw).status = "Search Failed" ∧
    (noDomainsRecord kw).status = "No Domains Found" ∧
    (∀ msg, (keyword_error_record kw msg).status = "Keyword Error: " ++ msg) ∧
    List.Pairwise (fun a b => a ≠ b)
      (["Search Failed", "No Domains Found", "WHOIS Failed",
        "Age Calculation Failed", "Success"] : List String) ∧
    (∀ msg s, s ∈ (["Search Failed", "No Domains Found", "WHOIS Failed",
        "Age Calculation Failed", "Success"] : List String) → "Error: " ++ msg ≠ s) ∧
    (∀ msg s, s ∈ (["Search Failed", "No Domains Found", "WHOIS Failed",
        "Age Calculation Failed", "Success"] : List String) →
      "Keyword Error: " ++ msg ≠ s) ∧
    (∀ msg msg2, ("Error: " ++ msg : String) ≠ "Keyword Error: " ++ msg2) := by
  refine ⟨?_, ?_, ?_, ?_, fun msg => rfl, rfl, rfl, fun msg => rfl, by decide,
    ?_, ?_, ?_⟩
  · intro msg h
    subst h
    rfl
  · intro wd h hw
    subst h
    simp [process_domain, hw]
  · intro wd h hw hage
    subst h
    rcases hc : calculate_domain_age now wd with ⟨a, b⟩
    rw [age_calc_ok, hc] at hage
    cases a <;> cases b <;> simp_all [process_domain, hw, hc]
  · intro wd h hw hage
    subst h
    rcases hc : calculate_domain_age now wd with ⟨a, b⟩
    rw [age_calc_ok, hc] at hage
    cases a <;> cases b <;> simp_all [process_domain, hw, hc]
  · intro msg s hs
    fin_cases hs <;> exact error_status_ne msg _ (by decide)
  · intro msg s hs
    fin_cases hs <;> exact keyword_error_status_ne msg _ (by decide)
  · intro msg msg2
    exact error_status_ne msg ("Keyword Error: " ++ msg2)
      (show (some 'K' : Option Char) ≠ some 'E' by decide)

/-- C6 witness: a raised exception with message `boom` yields the status
`Error: boom` verbatim. -/
theorem c6_witness :
    (process_domain pinned_now "k" "d" (.error "boom")).status = "Error: " ++ "boom" :=
  (c6_status_taxonomy pinned_now "k" "d" (.error "boom")).1 "boom" rfl

/-! ## Claim C2: the WHOIS concurrency cap -/

/-- Updating one slot trades its old phase for the new one in the count. -/
theorem countPhase_set (l : List DomainTaskPhase) (i : Nat)
    (a b p : DomainTaskPhase) (h : l.get? i = some a) :
    countPhase p (l.set i b) + (if a = p then 1 else 0) =
      countPhase p l + (if b = p then 1 else 0) := by
  induction l generalizing i with
  | nil => simp at h
  | cons q qs ih =>
    cases i with
    | zero =>
      simp at h
      subst h
      simp only [List.set, countPhase]
      omega
    | succ m =>
      simp only [List.get?] at h
      simp only [List.set, countPhase]
      have := ih m h
      omega

/-- A replicated foreign phase contributes no occurrences. -/
theorem countPhase_replicate (p q : DomainTaskPhase) (h : q ≠ p) :
    ∀ n, countPhase p (List.replicate n q) = 0 := by
  intro n
  induction n with
  | zero => rfl
  | succ m ih => simp [List.replicate, countPhase, h, ih]

/-- Semaphore invariant: free permits plus held permits always equal the
capacity of 2. -/
theorem sched_permit_invariant {n : Nat} {s : SchedState}
    (h : SchedReach n s) : s.avail + permitHolders s = semaphore_capacity := by
  induction h with
  | init =>
    unfold initSched permitHolders semaphore_capacity
    rw [countPhase_replicate _ _ (by decide), countPhase_replicate _ _ (by decide)]
  | @step s1 s2 hreach hstep ih =>
    cases hstep with
    | acquire i hp ha =>
      have h1 := countPhase_set s1.tasks i .pending .processing .processing hp
      have h2 := countPhase_set s1.tasks i .pending .processing .pacing hp
      simp at h1 h2
      unfold permitHolders at ih ⊢
      dsimp only
      omega
    | cancel i hp =>
      have h1 := countPhase_set s1.tasks i .pending .cancelled .processing hp
      have h2 := countPhase_set s1.tasks i .pending .cancelled .pacing hp
      simp at h1 h2
      unfold permitHolders at ih ⊢
      dsimp only
      omega
    | finishLookup i hp =>
      have h1 := countPhase_set s1.tasks i .processing .pacing .processing hp
      have h2 := countPhase_set s1.tasks i .processing .pacing .pacing hp
      simp at h1 h2
      unfold permitHolders at ih ⊢
      dsimp only
      omega
    | release i hp =>
      have h1 := countPhase_set s1.tasks i .pacing .done .processing hp
      have h2 := countPhase_set s1.tasks i .pacing .done .pacing hp
      simp at h1 h2
      unfold permitHolders at ih ⊢
      dsimp only
      omega

/-- C2: in every state reachable by a job run, no matter how many domain
tasks were spawned (hence for any `max_domains_per_keyword` and any
number of keywords sharing the one job-wide semaphore), at most 2 WHOIS
lookups are in flight simultaneously. -/
theorem c2_whois_concurrency_bound (n : Nat) (s : SchedState)
    (h : SchedReach n s) : inflightWhois s ≤ 2 ∧ semaphore_capacity = 2 := by
  refine ⟨?_, rfl⟩
  have hinv := sched_permit_invariant h
  unfold permitHolders semaphore_capacity at hinv
  unfold inflightWhois
  omega

/-- C2 witness: after one task acquires a permit, the bound holds in the
reached state. -/
theorem c2_witness :
    inflightWhois ⟨(initSched 2).tasks.set 0 .processing, (initSched 2).avail - 1⟩ ≤ 2 :=
  (c2_whois_concurrency_bound 2 _
      (SchedReach.step SchedReach.init
        (SchedStep.acquire (initSched 2) 0 rfl (by decide)))).1

/-! ## Claims C5 and C10: domain extraction -/

/-- `urlparse` on a value is the parse of its string view. -/
theorem domainOfUrl_eq_bind (v : PyVal) :
    domainOfUrl v = (PyVal.asStr v).bind normalizeDomain := by
  cases v <;> rfl

/-- Membership in the insertion-ordered set. -/
theorem mem_insertNew (l : List String) (x d : String) :
    d ∈ insertNew l x ↔ d ∈ l ∨ d = x := by
  unfold insertNew
  split
  · constructor
    · exact Or.inl
    · rintro (hd | rfl)
      · exact hd
      · assumption
  · simp [List.mem_append]

/-- Insertion preserves freedom from duplicates. -/
theorem insertNew_nodup (l : List String) (d : String) (h : l.Nodup) :
    (insertNew l d).Nodup := by
  unfold insertNew
  split
  · exact h
  · next hmem => simp [List.nodup_append, h, hmem]

/-- The domain loop of the source equals the spec-style pipeline: fold
the normalized string views into the deduplicated accumulator. -/
theorem addDomains_eq_dedup (vs : List PyVal) : ∀ acc : List String,
    addDomainsFromUrls vs acc =
      dedupAdd acc ((vs.filterMap PyVal.asStr).filterMap normalizeDomain) := by
  induction vs with
  | nil => intro acc; rfl
  | cons v vs ih =>
    intro acc
    cases hs : PyVal.asStr v with
    | none =>
      have hd : domainOfUrl v = Option.none := by
        rw [domainOfUrl_eq_bind, hs]; rfl
      simp only [addDomainsFromUrls, dedupAdd, List.foldl_cons,
        List.filterMap_cons, hs, hd]
      exact ih acc
    | some s =>
      have hd : domainOfUrl v = normalizeDomain s := by
        rw [domainOfUrl_eq_bind, hs]; rfl
      cases hnd : normalizeDomain s with
      | none =>
        simp only [addDomainsFromUrls, dedupAdd, List.foldl_cons,
          List.filterMap_cons, hs, hd, hnd]
        exact ih acc
      | some d =>
        simp only [addDomainsFromUrls, dedupAdd, List.foldl_cons,
          List.filterMap_cons, hs, hd, hnd]
        exact ih (insertNew acc d)

/-- Elements of the domain fold come from the accumulator or from a
collected URL value. -/
theorem addDomains_mem (vs : List PyVal) : ∀ (acc : List String) (d : String),
    d ∈ addDomainsFromUrls vs acc →
      d ∈ acc ∨ ∃ v ∈ vs, domainOfUrl v = some d := by
  induction vs with
  | nil => intro acc d hd; exact Or.inl hd
  | cons v vs ih =>
    intro acc d hd
    rw [addDomainsFromUrls, List.foldl_cons] at hd
    cases hv : domainOfUrl v with
    | none =>
      rw [hv] at hd
      rcases ih acc d hd with h | ⟨w, hw, hdw⟩
      · exact Or.inl h
      · exact Or.inr ⟨w, List.mem_cons_of_mem v hw, hdw⟩
    | some d0 =>
      rw [hv] at hd
      rcases ih (insertNew acc d0) d hd with h | ⟨w, hw, hdw⟩
      · rcases (mem_insertNew acc d0 d).mp h with h2 | rfl
        · exact Or.inl h2
        · exact Or.inr ⟨v, List.mem_cons_self v vs, hv⟩
      · exact Or.inr ⟨w, List.mem_cons_of_mem v hw, hdw⟩

/-- The domain fold preserves freedom from duplicates. -/
theorem addDomains_nodup (vs : List PyVal) : ∀ acc : List String,
    acc.Nodup → (addDomainsFromUrls vs acc).Nodup := by
  induction vs with
  | nil => intro acc h; exact h
  | cons v vs ih =>
    intro acc h
    rw [addDomainsFromUrls, List.foldl_cons]
    cases hv : domainOfUrl v with
    | none => exact ih acc h
    | some d0 => exact ih (insertNew acc d0) (insertNew_nodup acc d0 h)

/-- ASCII lowercasing is idempotent. -/
theorem char_toNat_ofNat_small (m : Nat) (h : m < 55296) :
    (Char.ofNat m).toNat = m := by
  rw [Char.ofNat, dif_pos (Or.inl h)]
  rfl

/-- Lowercasing a character twice is the same as once. -/
theorem toLower_toLower (c : Char) : c.toLower.toLower = c.toLower := by
  by_cases h : 65 ≤ c.toNat ∧ c.toNat ≤ 90
  · have h1 : c.toLower = Char.ofNat (c.toNat + 32) := by
      unfold Char.toLower
      rw [if_pos h]
    rw [h1]
    have h2 : (Char.ofNat (c.toNat + 32)).toNat = c.toNat + 32 :=
      char_toNat_ofNat_small _ (by omega)
    unfold Char.toLower
    rw [if_neg (by rw [h2]; omega)]
  · have h1 : c.toLower = c := by
      unfold Char.toLower
      rw [if_neg h]
    rw [h1, h1]

/-- Lowercasing a character list is idempotent. -/
theorem pyLowerChars_idem (cs : List Char) :
    pyLowerChars (pyLowerChars cs) = pyLowerChars cs := by
  induction cs with
  | nil => rfl
  | cons c cs ih =>
    unfold pyLowerChars at *
    simp only [List.map_cons, toLower_toLower, ih]

/-- Lowercasing commutes with dropping a prefix. -/
theorem pyLowerChars_drop (cs : List Char) (n : Nat) :
    pyLowerChars (cs.drop n) = (pyLowerChars cs).drop n := by
  induction cs generalizing n with
  | nil => simp [pyLowerChars]
  | cons c cs ih =>
    cases n with
    | zero => rfl
    | succ m => exact ih m

/-- Every domain produced by the URL normalizer is non-empty, contains a
dot, does not start with a dot, and is fixed by lowercasing. -/
theorem normalizeDomain_valid {url d : String} (h : normalizeDomain url = some d) :
    d.data ≠ [] ∧ '.' ∈ d.data ∧ d.data.headD ' ' ≠ '.' ∧
      pyLowerChars d.data = d.data := by
  unfold normalizeDomain at h
  cases hnet : urlparseNetloc url with
  | error e => rw [hnet] at h; exact absurd h (by simp)
  | ok netloc =>
    rw [hnet] at h
    dsimp only at h
    generalize hX : (if (pyLowerChars netloc).take 4 = "www.".toList
      then (pyLowerChars netloc).drop 4 else pyLowerChars netloc) = X at h
    have hlow : pyLowerChars X = X := by
      rw [← hX]
      split
      · rw [pyLowerChars_drop, pyLowerChars_idem]
      · exact pyLowerChars_idem netloc
    split at h
    case isTrue hcond =>
      obtain ⟨h1, h2, h3⟩ := hcond
      injection h with h
      subst h
      exact ⟨h1, h2, h3, hlow⟩
    case isFalse hcond => exact absurd h (by simp)

/-- C10: domain extraction is total over arbitrary parsed JSON (the
model returns a value on every `PyVal`, with every Python exception
routed to a caught branch), the result is a duplicate-free set, and
every member is a non-empty fully-lowercase string that contains a dot
and does not start with one. -/
theorem c10_extraction_safety (sr : PyVal) :
    (extract_domains sr).Nodup ∧
    ∀ d ∈ extract_domains sr,
      d.data ≠ [] ∧ '.' ∈ d.data ∧ d.data.headD ' ' ≠ '.' ∧
        pyLowerChars d.data = d.data := by
  constructor
  · unfold extract_domains
    split
    · exact List.nodup_nil
    · split
      · exact List.nodup_nil
      · exact addDomains_nodup _ [] List.nodup_nil
  · intro d hd
    unfold extract_domains at hd
    split at hd
    · exact absurd hd (List.not_mem_nil d)
    · split at hd
      · exact absurd hd (List.not_mem_nil d)
      · rcases addDomains_mem _ [] d hd with h | ⟨v, _, hdom⟩
        · exact absurd h (List.not_mem_nil d)
        · cases v with
          | str s => exact normalizeDomain_valid hdom
          | none => exact absurd hdom (by simp [domainOfUrl])
          | bool b => exact absurd hdom (by simp [domainOfUrl])
          | int n => exact absurd hdom (by simp [domainOfUrl])
          | list xs => exact absurd hdom (by simp [domainOfUrl])
          | dict kvs => exact absurd hdom (by simp [domainOfUrl])

/-- C10 witness: the concrete response yields `a.com`, which satisfies
all the output constraints. -/
theorem c10_witness :
    ("a.com" : String).data ≠ [] ∧ '.' ∈ ("a.com" : String).data ∧
    ("a.com" : String).data.headD ' ' ≠ '.' ∧
    pyLowerChars ("a.com" : String).data = ("a.com" : String).data :=
  (c10_extraction_safety c5Input).2 "a.com" (by decide)

/-- The string views of the values a `results[]` entry contributes are
exactly the URL strings of the amended claim. -/
theorem entryVal_strings_amended (r : PyVal) :
    (entryValAmended r).filterMap PyVal.asStr = entryUrlStringsAmended r := by
  cases r with
  | dict kvs =>
    cases hfind : kvs.find? (fun kv => kv.1 == "url") with
    | some kv =>
      cases hv : kv.2 <;>
        simp [entryValAmended, entryUrlStringsAmended, hfind, hv, PyVal.asStr]
    | none =>
      cases hfind2 : kvs.find? (fun kv => kv.1 == "link") with
      | some kv =>
        cases hv : kv.2 <;>
          simp [entryValAmended, entryUrlStringsAmended, hfind, hfind2, hv, PyVal.asStr]
      | none => simp [entryValAmended, entryUrlStringsAmended, hfind, hfind2]
  | none => rfl
  | bool b => rfl
  | int n => rfl
  | str s => rfl
  | list xs => rfl

/-- Same for `organic[]` entries. -/
theorem entryVal_strings_organic (r : PyVal) :
    (entryValOrganic r).filterMap PyVal.asStr = entryUrlStringOrganic r := by
  cases r with
  | dict kvs =>
    cases hfind : kvs.find? (fun kv => kv.1 == "url") with
    | some kv =>
      cases hv : kv.2 <;>
        simp [entryValOrganic, entryUrlStringOrganic, hfind, hv, PyVal.asStr]
    | none => simp [entryValOrganic, entryUrlStringOrganic, hfind]
  | none => rfl
  | bool b => rfl
  | int n => rfl
  | str s => rfl
  | list xs => rfl

/-- Taking string views commutes with flattening per-entry contributions. -/
theorem flatten_strings (f : PyVal → List PyVal) (g : PyVal → List String)
    (hfg : ∀ r, (f r).filterMap PyVal.asStr = g r) (es : List PyVal) :
    ((es.map f).flatten).filterMap PyVal.asStr = (es.map g).flatten := by
  induction es with
  | nil => rfl
  | cons r rs ih => simp [List.filterMap_append, hfg, ih]

/-- Over a list of dict entries the `results[]` scan never raises and
collects exactly the per-entry url values. -/
theorem collectFromResults_wf (es : List PyVal) (h : es.all PyVal.isDict = true) :
    collectFromResults es = .ok ((es.map entryValAmended).flatten) := by
  induction es with
  | nil => rfl
  | cons r rs ih =>
    rw [List.all_cons, Bool.and_eq_true] at h
    obtain ⟨hr, hrs⟩ := h
    cases r with
    | dict kvs =>
      cases hfind : kvs.find? (fun kv => kv.1 == "url") with
      | some kv =>
        have hany : kvs.any (fun kv => kv.1 == "url") = true := by
          rw [List.any_eq_true]
          have hp := List.find?_some hfind
          exact ⟨kv, List.mem_of_find?_eq_some hfind, hp⟩
        simp [collectFromResults, pyContains, pyIndex, hany, hfind,
          entryValAmended, ih hrs]
      | none =>
        have hany : kvs.any (fun kv => kv.1 == "url") = false := by
          rw [List.any_eq_false]
          intro kv hkv
          have := List.find?_eq_none.mp hfind kv hkv
          simpa using this
        cases hfind2 : kvs.find? (fun kv => kv.1 == "link") with
        | some kv =>
          have hany2 : kvs.any (fun kv => kv.1 == "link") = true := by
            rw [List.any_eq_true]
            have hp2 := List.find?_some hfind2
            exact ⟨kv, List.mem_of_find?_eq_some hfind2, hp2⟩
          simp [collectFromResults, pyContains, pyIndex, hany, hany2, hfind,
            hfind2, entryValAmended, ih hrs]
        | none =>
          have hany2 : kvs.any (fun kv => kv.1 == "link") = false := by
            rw [List.any_eq_false]
            intro kv hkv
            have := List.find?_eq_none.mp hfind2 kv hkv
            simpa using this
          simp [collectFromResults, pyContains, hany, hany2, hfind, hfind2,
            entryValAmended, ih hrs]
    | none => simp [PyVal.isDict] at hr
    | bool b => simp [PyVal.isDict] at hr
    | int n => simp [PyVal.isDict] at hr
    | str s => simp [PyVal.isDict] at hr
    | list xs => simp [PyVal.isDict] at hr

/-- Over a list of dict entries the `organic[]` scan never raises and
collects exactly the per-entry url values. -/
theorem collectFromOrganic_wf (es : List PyVal) (h : es.all PyVal.isDict = true) :
    collectFromOrganic es = .ok ((es.map entryValOrganic).flatten) := by
  induction es with
  | nil => rfl
  | cons r rs ih =>
    rw [List.all_cons, Bool.and_eq_true] at h
    obtain ⟨hr, hrs⟩ := h
    cases r with
    | dict kvs =>
      cases hfind : kvs.find? (fun kv => kv.1 == "url") with
      | some kv =>
        have hany : kvs.any (fun kv => kv.1 == "url") = true := by
          rw [List.any_eq_true]
          have hp := List.find?_some hfind
          exact ⟨kv, List.mem_of_find?_eq_some hfind, hp⟩
        simp [collectFromOrganic, pyContains, pyIndex, hany, hfind,
          entryValOrganic, ih hrs]
      | none =>
        have hany : kvs.any (fun kv => kv.1 == "url") = false := by
          rw [List.any_eq_false]
          intro kv hkv
          have := List.find?_eq_none.mp hfind kv hkv
          simpa using this
        simp [collectFromOrganic, pyContains, hany, hfind, entryValOrganic, ih hrs]
    | none => simp [PyVal.isDict] at hr
    | bool b => simp [PyVal.isDict] at hr
    | int n => simp [PyVal.isDict] at hr
    | str s => simp [PyVal.isDict] at hr
    | list xs => simp [PyVal.isDict] at hr

/-- A well-shaped key section scans without raising and yields the
per-entry url values of its entry list. -/
theorem sectionUrls_wf (collect : List PyVal → Except String (List PyVal))
    (fval : PyVal → List PyVal) (key : String) (kvs : List (String × PyVal))
    (h : okSection key kvs = true)
    (hcollect : ∀ es, es.all PyVal.isDict = true →
      collect es = .ok ((es.map fval).flatten)) :
    sectionUrls collect key (.dict kvs) =
      .ok (((sectionEntries key (.dict kvs)).map fval).flatten) := by
  unfold okSection at h
  cases hfind : kvs.find? (fun kv => kv.1 == key) with
  | none =>
    have hany : kvs.any (fun kv => kv.1 == key) = false := by
      rw [List.any_eq_false]
      intro kv hkv
      have := List.find?_eq_none.mp hfind kv hkv
      simpa using this
    simp [sectionUrls, sectionEntries, pyContains, hany, hfind]
  | some kv =>
    have hany : kvs.any (fun kv2 => kv2.1 == key) = true := by
      rw [List.any_eq_true]
      have hp := List.find?_some hfind
      exact ⟨kv, List.mem_of_find?_eq_some hfind, hp⟩
    simp only [hfind] at h
    cases hv : kv.2 with
    | list es =>
      simp only [hv] at h
      simp [sectionUrls, sectionEntries, pyContains, pyIndex, pyIter, hany,
        hfind, hv, hcollect es h]
    | none => simp [hv] at h
    | bool b => simp [hv] at h
    | int n => simp [hv] at h
    | str s => simp [hv] at h
    | dict kvs2 => simp [hv] at h

/-- C5 counterexample: on an entry carrying both `url` and `link`, the
code collects only `url` (an `elif`), so `b.com` is missing from its
output, while the claimed algorithm (collect under all recognized keys)
produces it. -/
theorem c5_counterexample :
    extract_domains c5Input = ["a.com"] ∧
    extractDomainsSpec c5Input = ["a.com", "b.com"] ∧
    "b.com" ∈ extractDomainsSpec c5Input ∧ "b.com" ∉ extract_domains c5Input := by
  refine ⟨by decide, by decide, by decide, by decide⟩

/-- C5 (amended): on every well-shaped search response, extraction
collects the URL strings under `results[].url`, under `results[].link`
only for entries with no `url` key, and under `organic[].url`, then
parses each network location, lowercases it, strips one leading `www.`,
and adds it to the deduplicated output exactly when it is non-empty,
contains a `.` and does not start with `.`. -/
theorem c5_extract_matches_amended (sr : PyVal) (h : wellFormedResponse sr = true) :
    extract_domains sr = extractDomainsAmended sr := by
  cases sr with
  | dict kvs =>
    unfold wellFormedResponse at h
    rw [Bool.and_eq_true] at h
    obtain ⟨hres, horg⟩ := h
    by_cases hemp : kvs = []
    · subst hemp; rfl
    · have htr : (PyVal.dict kvs).truthy = true := by
        simp [PyVal.truthy, hemp]
      have hsec1 := sectionUrls_wf collectFromResults entryValAmended "results"
        kvs hres collectFromResults_wf
      have hsec2 := sectionUrls_wf collectFromOrganic entryValOrganic "organic"
        kvs horg collectFromOrganic_wf
      unfold extract_domains collectUrls
      rw [htr, hsec1, hsec2]
      simp only [Bool.not_true, Bool.false_eq_true, if_false]
      rw [addDomains_eq_dedup]
      unfold extractDomainsAmended collectUrlStringsAmended
      rw [List.filterMap_append,
        flatten_strings entryValAmended entryUrlStringsAmended entryVal_strings_amended,
        flatten_strings entryValOrganic entryUrlStringOrganic entryVal_strings_organic,
        List.filterMap_append]
  | none => rfl
  | bool b =>
    cases b with
    | false => rfl
    | true => simp [wellFormedResponse, PyVal.truthy] at h
  | int n =>
    unfold wellFormedResponse PyVal.truthy at h
    simp at h
    subst h
    rfl
  | str s =>
    unfold wellFormedResponse PyVal.truthy at h
    simp at h
    subst h
    rfl
  | list xs =>
    unfold wellFormedResponse PyVal.truthy at h
    simp at h
    subst h
    rfl

/-- C5 witness: on the concrete response the extraction of the code agrees
with the amended algorithm. -/
theorem c5_witness : extract_domains c5Input = extractDomainsAmended c5Input :=
  c5_extract_matches_amended c5Input (by decide)

end NAPS2
